import Mathlib

/-!
Shallow embedding of the alt-controller command relay server.

Two variants are embedded, each from its own source file:
* `AltController.Server` — the role-aware server (`backend_server.js`):
  command log + user registry + authorized-name set, with the admin/alt
  visibility filter.
* `AltController.Legacy` — the flat single-tier variant
  (`src/unnamed/part_000`): command log only, with the
  `isCoordinated`/`targetAlts` addressing filter.

JavaScript dynamic values that the code inspects (the `args` payload, the
`isAuthorized` flag, targeting fields) are modelled by `JsValue`, with
JS truthiness, property access (throwing on `undefined`/`null` receivers)
and strict equality against strings or `null`. Client-supplied timestamps
are modelled as `Option Int` (`none` = the field is absent, i.e.
`undefined`); the JS comparisons `undefined < n` and `undefined > n` are
both `false`, which `jsLtOpt`/`jsGtOpt` reproduce. Object fields are
assumed to have pairwise distinct keys, as JSON-parsed objects do.
-/

namespace AltController

/-- Model of a JavaScript value as far as the server inspects one. -/
inductive JsValue where
  | undefined
  | null
  | bool (b : Bool)
  | num (n : Int)
  | str (s : String)
  | obj (fields : List (String × JsValue))

/-- JS truthiness (`if (v)`), restricted to the values the model carries. -/
def truthy : JsValue → Bool
  | .undefined => false
  | .null => false
  | .bool b => b
  | .num n => n != 0
  | .str s => s != ""
  | .obj _ => true

/-- Property access `v[k]`: throws (`.error`) when `v` is `undefined` or
`null`; yields `undefined` on other primitives; looks the key up on an
object. -/
def getProp : JsValue → String → Except Unit JsValue
  | .undefined, _ => .error ()
  | .null, _ => .error ()
  | .obj fields, k => .ok (((fields.find? (fun p => p.1 == k)).map Prod.snd).getD .undefined)
  | _, _ => .ok .undefined

/-- Property access on a value already known truthy (so never throwing):
used where the code guards the access, e.g. `cmd.args && cmd.args.target`. -/
def getPropT : JsValue → String → JsValue
  | .obj fields, k => ((fields.find? (fun p => p.1 == k)).map Prod.snd).getD .undefined
  | _, _ => .undefined

/-- JS strict equality `v === s` against a string. -/
def strictEqStr : JsValue → String → Bool
  | .str a, b => a == b
  | _, _ => false

/-- JS strict equality `v === null`. -/
def strictEqNull : JsValue → Bool
  | .null => true
  | _ => false

/-- JS strict equality against a nullable string (`currentUserName` is the
stored display name, or `null` when the poller is unregistered). -/
def strictEqStrOrNull (v : JsValue) : Option String → Bool
  | some s => strictEqStr v s
  | none => strictEqNull v

/-- The keys of an object value (empty for non-objects). -/
def objKeys : JsValue → List String
  | .obj fields => fields.map Prod.fst
  | _ => []

/-- JS `ts < bound` where `ts` may be absent (`undefined < n` is `false`). -/
def jsLtOpt : Option Int → Int → Bool
  | none, _ => false
  | some a, b => a < b

/-- JS `ts > bound` where `ts` may be absent (`undefined > n` is `false`). -/
def jsGtOpt : Option Int → Int → Bool
  | none, _ => false
  | some a, b => b < a

/-- `Array.prototype.slice(-n)`: the last `n` elements. -/
def takeLast (n : Nat) (l : List α) : List α := l.drop (l.length - n)

/-- Insertion-ordered map `set` (JS `Map.prototype.set`): overwrite in
place if the key exists, else append. -/
def mapSet (m : List (String × α)) (k : String) (v : α) : List (String × α) :=
  if m.any (fun p => p.1 == k) then
    m.map (fun p => if p.1 == k then (k, v) else p)
  else m ++ [(k, v)]

/-- Map `get` (JS `Map.prototype.get`, `undefined` becomes `none`). -/
def mapGet (m : List (String × α)) (k : String) : Option α :=
  (m.find? (fun p => p.1 == k)).map Prod.snd

/-- Insertion-ordered set `add` (JS `Set.prototype.add`). -/
def setAdd (s : List String) (n : String) : List String :=
  if s.contains n then s else s ++ [n]

/-- The allow list of `sanitizeCommandData` (defined identically in both
source files; the role-aware server defines it but never calls it). -/
def allowedKeys : List String :=
  ["command", "args", "targetAlts", "mainUser", "commandId", "timestamp"]

/-- JS strict comparison `v === undefined`. -/
def isUndefined : JsValue → Bool
  | .undefined => true
  | _ => false

/-- `sanitizeCommandData(data)`: `{}` for falsy input, otherwise the object
keeping exactly the allow-listed keys whose value passes the
`data[key] !== undefined` test (property reads on a truthy primitive all
yield `undefined`, so those also sanitize to `{}`). -/
def sanitizeCommandData (data : JsValue) : JsValue :=
  if truthy data then
    .obj (allowedKeys.filterMap (fun k =>
      if isUndefined (getPropT data k) then none
      else some (k, getPropT data k)))
  else .obj []

/-- `typeof v === 'object'` (true for objects and for `null`). -/
def isObjectType : JsValue → Bool
  | .obj _ => true
  | .null => true
  | _ => false

/-- `validateCoordinatedCommand(data)`: truthy, of object type, and with a
truthy `command` field. -/
def validateCoordinatedCommand (data : JsValue) : Bool :=
  truthy data && isObjectType data && truthy (getPropT data "command")

/-- Process configuration: the optional shared secret and its toggle. -/
structure ApiConfig where
  requireApiKey : Bool
  apiKey : Option String

/-- Truthiness of the `API_KEY` environment value (`null` or `""` disable
the check). -/
def optStrTruthy : Option String → Bool
  | none => false
  | some s => s != ""

/-- `validateApiKey`: accept everything unless the key is both required and
configured; otherwise the supplied key (body or query) must strictly equal
the configured one (`undefined === key` is `false`). -/
def validateApiKey (cfg : ApiConfig) (supplied : Option String) : Bool :=
  if !cfg.requireApiKey || !optStrTruthy cfg.apiKey then true
  else
    match supplied, cfg.apiKey with
    | some a, some k => a == k
    | _, _ => false

/-- A parsed `POST /api/command` body. `scriptId`/`playerId`/`playerName`/
`command` are modelled as strings with `""` standing for an absent (falsy)
field; `args` is an arbitrary JS value; `timestamp` is `none` when the
field is absent. -/
structure PostRequest where
  scriptId : String
  playerId : String
  playerName : String
  command : String
  args : JsValue
  timestamp : Option Int
  apiKey : Option String

namespace Server

/-- An entry of `registeredUsers` (role-aware variant). -/
structure RegisteredUser where
  scriptId : String
  playerId : String
  playerName : String
  isAuthorized : JsValue
  timestamp : Int

/-- A stored command record (role-aware variant). `targetAlts` is the
JS value stored on the record: `"all"` on admin records, absent
(`undefined`) on alt records. -/
structure CommandRecord where
  id : String
  scriptId : String
  playerId : String
  playerName : String
  command : String
  args : JsValue
  timestamp : Option Int
  createdAt : Int
  isAdminCommand : Bool
  targetAlts : JsValue

/-- The mutable state of the role-aware server. -/
structure ServerState where
  commands : List CommandRecord
  registeredUsers : List (String × RegisteredUser)
  authorizedUsers : List String

/-- Boot state: empty log, empty registry, empty authorized set. -/
def initState : ServerState :=
  { commands := [], registeredUsers := [], authorizedUsers := [] }

/-- Responses of `POST /api/command` (role-aware variant). -/
inductive PostResponse where
  | unauthorized
  | badRequest
  | registered (isAuthorized : JsValue)
  | adminDistributed (commandId : String)
  | received (commandId : String)
  | internalError

/-- Whether a response is the HTTP 500 one. -/
def PostResponse.isInternalError : PostResponse → Bool
  | .internalError => true
  | _ => false

/-- The command record built by the non-register branches: `args || {}`,
`isAdminCommand` baked in, `targetAlts: "all"` only on the admin branch. -/
def mkCommandRecord (now : Int) (req : PostRequest) (isAdmin : Bool) : CommandRecord :=
  { id := toString now
    scriptId := req.scriptId
    playerId := req.playerId
    playerName := req.playerName
    command := req.command
    args := if truthy req.args then req.args else .obj []
    timestamp := req.timestamp
    createdAt := now
    isAdminCommand := isAdmin
    targetAlts := if isAdmin then .str "all" else .undefined }

/-- `POST /api/command` handler of the role-aware server. `now` is the
server clock (`Date.now()`) during the request. A `register` command whose
`args.isAuthorized` read throws (receiver `undefined` or `null`) is caught
by the surrounding try/catch before `registeredUsers.set` runs, yielding
the 500 response with the state untouched. -/
def handleCommand (cfg : ApiConfig) (now : Int) (req : PostRequest) (σ : ServerState) :
    PostResponse × ServerState :=
  if !validateApiKey cfg req.apiKey then (.unauthorized, σ)
  else if req.scriptId = "" ∨ req.playerId = "" ∨ req.command = "" then (.badRequest, σ)
  else if req.command = "register" then
    match getProp req.args "isAuthorized" with
    | .error _ => (.internalError, σ)
    | .ok isAuth =>
      (.registered isAuth,
        { σ with
          registeredUsers := mapSet σ.registeredUsers req.playerId
            { scriptId := req.scriptId, playerId := req.playerId,
              playerName := req.playerName, isAuthorized := isAuth, timestamp := now }
          authorizedUsers :=
            if truthy isAuth then setAdd σ.authorizedUsers req.playerName
            else σ.authorizedUsers })
  else
    let isAdmin := σ.authorizedUsers.contains req.playerName
    let record := mkCommandRecord now req isAdmin
    let grown := σ.commands ++ [record]
    let trimmed := if 100 < grown.length then takeLast 100 grown else grown
    ((if isAdmin then .adminDistributed record.id else .received record.id),
      { σ with commands := trimmed })

/-- `isCurrentUserAdmin` of the read path: the truthiness of the stored
`isAuthorized` value, `false` for an unregistered poller. -/
def pollerIsAdmin (σ : ServerState) (playerId : String) : Bool :=
  match mapGet σ.registeredUsers playerId with
  | some u => truthy u.isAuthorized
  | none => false

/-- `currentUserName` of the read path: the stored display name, or `null`
(`none`) for an unregistered poller. -/
def pollerName (σ : ServerState) (playerId : String) : Option String :=
  (mapGet σ.registeredUsers playerId).map RegisteredUser.playerName

/-- The filter predicate of `GET /api/commands` (role-aware variant),
one clause per early return of the source closure. -/
def visiblePred (now : Int) (scriptId playerId : String) (σ : ServerState)
    (cmd : CommandRecord) : Bool :=
  if cmd.scriptId ≠ scriptId ∨ cmd.playerId = playerId then false
  else if jsLtOpt cmd.timestamp (now - 30000) then false
  else if cmd.isAdminCommand then
    if pollerIsAdmin σ playerId then false
    else if truthy cmd.args && truthy (getPropT cmd.args "target") then
      strictEqStrOrNull (getPropT cmd.args "target") (pollerName σ playerId)
        || strictEqStr (getPropT cmd.args "target") playerId
    else true
  else if !cmd.isAdminCommand && pollerIsAdmin σ playerId then true
  else false

/-- `filteredCommands` of the read path. -/
def filteredCommands (now : Int) (scriptId playerId : String) (σ : ServerState) :
    List CommandRecord :=
  σ.commands.filter (visiblePred now scriptId playerId σ)

/-- `GET /api/commands` handler: auth and required-field checks, then the
filter. It performs no state mutation. -/
def handleGetCommands (cfg : ApiConfig) (now : Int) (scriptId playerId : String)
    (apiKey : Option String) (σ : ServerState) : Option (List CommandRecord) :=
  if !validateApiKey cfg apiKey then none
  else if scriptId = "" ∨ playerId = "" then none
  else some (filteredCommands now scriptId playerId σ)

/-- The 5-minute prune (`setInterval` body): keep records with
`timestamp > now - 300000`. -/
def pruneCommands (now : Int) (σ : ServerState) : ServerState :=
  { σ with commands := σ.commands.filter (fun cmd => jsGtOpt cmd.timestamp (now - 300000)) }

/-- The state-relevant operations of the role-aware server. A poll reads
but never writes, so its state effect is the identity. -/
inductive ServerOp where
  | post (now : Int) (req : PostRequest)
  | poll (now : Int) (scriptId playerId : String) (apiKey : Option String)
  | prune (now : Int)

/-- State effect of one operation. -/
def applyOp (cfg : ApiConfig) : ServerOp → ServerState → ServerState
  | .post now req, σ => (handleCommand cfg now req σ).2
  | .poll _ _ _ _, σ => σ
  | .prune now, σ => pruneCommands now σ

/-- The records a single `POST /api/command` appends: none on the
unauthorized / bad-request / register branches, the freshly built record
otherwise. -/
def postCreated (cfg : ApiConfig) (now : Int) (req : PostRequest) (σ : ServerState) :
    List CommandRecord :=
  if !validateApiKey cfg req.apiKey then []
  else if req.scriptId = "" ∨ req.playerId = "" ∨ req.command = "" then []
  else if req.command = "register" then []
  else [mkCommandRecord now req (σ.authorizedUsers.contains req.playerName)]

/-- The records an operation appends. -/
def createdByOp (cfg : ApiConfig) : ServerOp → ServerState → List CommandRecord
  | .post now req, σ => postCreated cfg now req σ
  | .poll _ _ _ _, _ => []
  | .prune _, _ => []

/-- State effect of a sequence of `POST /api/command` requests. -/
def applyPosts (cfg : ApiConfig) (ps : List (Int × PostRequest)) (σ : ServerState) :
    ServerState :=
  ps.foldl (fun s p => (handleCommand cfg p.1 p.2 s).2) σ

end Server

namespace Legacy

/-- A stored command record (flat legacy variant, `src/unnamed/part_000`). -/
structure CommandRecord where
  id : String
  scriptId : String
  playerId : String
  playerName : String
  command : String
  args : JsValue
  timestamp : Option Int
  createdAt : Int
  isCoordinated : Bool

/-- The mutable state of the legacy server: the command log only. -/
structure ServerState where
  commands : List CommandRecord

/-- Boot state: empty log. -/
def initState : ServerState := { commands := [] }

/-- Responses of `POST /api/command` (legacy variant). -/
inductive PostResponse where
  | unauthorized
  | badRequest
  | invalidCoordinated
  | coordinatedReceived (commandId : String)
  | received (commandId : String)

/-- The record built on the coordinated branch: sanitized args,
`command` fixed to `"coordinated"`, `isCoordinated` true. -/
def mkCoordinatedRecord (now : Int) (req : PostRequest) : CommandRecord :=
  { id := toString now
    scriptId := req.scriptId
    playerId := req.playerId
    playerName := req.playerName
    command := "coordinated"
    args := sanitizeCommandData req.args
    timestamp := req.timestamp
    createdAt := now
    isCoordinated := true }

/-- The record built on the regular branch: `args || {}` stored as
submitted, `isCoordinated` false. -/
def mkRegularRecord (now : Int) (req : PostRequest) : CommandRecord :=
  { id := toString now
    scriptId := req.scriptId
    playerId := req.playerId
    playerName := req.playerName
    command := req.command
    args := if truthy req.args then req.args else .obj []
    timestamp := req.timestamp
    createdAt := now
    isCoordinated := false }

/-- `POST /api/command` handler of the legacy server. The invalid
coordinated branch returns before the trim, leaving the state untouched. -/
def handleCommand (cfg : ApiConfig) (now : Int) (req : PostRequest) (σ : ServerState) :
    PostResponse × ServerState :=
  if !validateApiKey cfg req.apiKey then (.unauthorized, σ)
  else if req.scriptId = "" ∨ req.playerId = "" ∨ req.command = "" then (.badRequest, σ)
  else if req.command = "coordinated" then
    let coordinatedData := sanitizeCommandData req.args
    if !validateCoordinatedCommand coordinatedData then (.invalidCoordinated, σ)
    else
      let record := mkCoordinatedRecord now req
      let grown := σ.commands ++ [record]
      let trimmed := if 100 < grown.length then takeLast 100 grown else grown
      (.coordinatedReceived record.id, { commands := trimmed })
  else
    let record := mkRegularRecord now req
    let grown := σ.commands ++ [record]
    let trimmed := if 100 < grown.length then takeLast 100 grown else grown
    (.received record.id, { commands := trimmed })

/-- The filter predicate of `GET /api/commands` (legacy variant). -/
def visiblePred (now : Int) (scriptId playerId : String) (cmd : CommandRecord) : Bool :=
  if cmd.scriptId ≠ scriptId ∨ cmd.playerId = playerId then false
  else if jsLtOpt cmd.timestamp (now - 30000) then false
  else if cmd.isCoordinated && truthy (getPropT cmd.args "targetAlts") then
    if !strictEqStr (getPropT cmd.args "targetAlts") "all"
        && !strictEqStr (getPropT cmd.args "targetAlts") playerId then false
    else true
  else true

/-- `filteredCommands` of the legacy read path. -/
def filteredCommands (now : Int) (scriptId playerId : String) (σ : ServerState) :
    List CommandRecord :=
  σ.commands.filter (visiblePred now scriptId playerId)

/-- The 5-minute prune of the legacy variant (same body as the role-aware
one). -/
def pruneCommands (now : Int) (σ : ServerState) : ServerState :=
  { commands := σ.commands.filter (fun cmd => jsGtOpt cmd.timestamp (now - 300000)) }

/-- The records a single legacy `POST /api/command` appends (the legacy
server keeps no registry, so the result ignores the state). -/
def postCreated (cfg : ApiConfig) (now : Int) (req : PostRequest) (_σ : ServerState) :
    List CommandRecord :=
  if !validateApiKey cfg req.apiKey then []
  else if req.scriptId = "" ∨ req.playerId = "" ∨ req.command = "" then []
  else if req.command = "coordinated" then
    if !validateCoordinatedCommand (sanitizeCommandData req.args) then []
    else [mkCoordinatedRecord now req]
  else [mkRegularRecord now req]

/-- State effect of a sequence of legacy `POST /api/command` requests. -/
def applyPosts (cfg : ApiConfig) (ps : List (Int × PostRequest)) (σ : ServerState) :
    ServerState :=
  ps.foldl (fun s p => (handleCommand cfg p.1 p.2 s).2) σ

end Legacy

/-- The records created along a trajectory of operations, in order. -/
def createdAlong {γ Op α : Type} (apply : Op → γ → γ) (created : Op → γ → List α) :
    List Op → γ → List α
  | [], _ => []
  | op :: rest, x => created op x ++ createdAlong apply created rest (apply op x)

/-- The records created along a sequence of role-aware posts. -/
def Server.postsCreatedAlong (cfg : ApiConfig) (ps : List (Int × PostRequest))
    (σ : Server.ServerState) : List Server.CommandRecord :=
  createdAlong (fun p s => (Server.handleCommand cfg p.1 p.2 s).2)
    (fun p s => Server.postCreated cfg p.1 p.2 s) ps σ

/-- The records created along a sequence of legacy posts. -/
def Legacy.postsCreatedAlong (cfg : ApiConfig) (ps : List (Int × PostRequest))
    (σ : Legacy.ServerState) : List Legacy.CommandRecord :=
  createdAlong (fun p s => (Legacy.handleCommand cfg p.1 p.2 s).2)
    (fun p s => Legacy.postCreated cfg p.1 p.2 s) ps σ

/-! Concrete fixtures used by the witness and counterexample theorems. -/

/-- A configuration with the shared secret disabled. -/
def cfg0 : ApiConfig := { requireApiKey := false, apiKey := none }

/-- A plain alt command submission. -/
def reqBring : PostRequest :=
  { scriptId := "s1", playerId := "A", playerName := "Admin1", command := "bring",
    args := .obj [], timestamp := some 5, apiKey := none }

/-- A registration for id `"B"`, name `"N"`, with `isAuthorized: false`. -/
def regFalseReq : PostRequest :=
  { scriptId := "s1", playerId := "B", playerName := "N", command := "register",
    args := .obj [("isAuthorized", .bool false)], timestamp := some 0, apiKey := none }

/-- A state whose authorized-name set already holds `"N"`. -/
def stateWithN : Server.ServerState :=
  { commands := [], registeredUsers := [], authorizedUsers := ["N"] }

/-- The record `reqBring` creates when posted into `stateWithN`. -/
def rec0 : Server.CommandRecord :=
  Server.mkCommandRecord 5 reqBring (stateWithN.authorizedUsers.contains reqBring.playerName)

/-- A stored admin broadcast record with no explicit target. -/
def recAdm : Server.CommandRecord :=
  { id := "1", scriptId := "s1", playerId := "A", playerName := "Admin1",
    command := "bring", args := .obj [], timestamp := some 100, createdAt := 1,
    isAdminCommand := true, targetAlts := .str "all" }

/-- A state holding just `recAdm`, with nobody registered. -/
def stateC2 : Server.ServerState :=
  { commands := [recAdm], registeredUsers := [], authorizedUsers := [] }

/-- A stored record whose client timestamp is absent. -/
def recNoTs : Server.CommandRecord :=
  { id := "2", scriptId := "s1", playerId := "A", playerName := "Admin1",
    command := "bring", args := .obj [], timestamp := none, createdAt := 1,
    isAdminCommand := true, targetAlts := .str "all" }

/-- A state holding just the timestampless record. -/
def stateNoTs : Server.ServerState :=
  { commands := [recNoTs], registeredUsers := [], authorizedUsers := [] }

/-- A registration with `isAuthorized: true`. -/
def regTrueReq : PostRequest :=
  { scriptId := "s1", playerId := "A", playerName := "Admin1", command := "register",
    args := .obj [("isAuthorized", .bool true)], timestamp := some 0, apiKey := none }

/-- A registration whose `args` is a string — truthy but not an object. -/
def regStrReq : PostRequest :=
  { scriptId := "s1", playerId := "A", playerName := "Admin1", command := "register",
    args := .str "x", timestamp := some 0, apiKey := none }

/-- A registration whose `args` field is absent. -/
def regUndefReq : PostRequest :=
  { scriptId := "s1", playerId := "A", playerName := "Admin1", command := "register",
    args := .undefined, timestamp := some 0, apiKey := none }

/-- A non-register submission whose `args` carries a key outside the
allow list. -/
def reqEvil : PostRequest :=
  { scriptId := "s1", playerId := "A", playerName := "Eve", command := "bring",
    args := .obj [("evil", .num 1)], timestamp := some 0, apiKey := none }

/-- A coordinated-args object mixing allowed and disallowed keys. -/
def dataMixed : JsValue :=
  .obj [("command", .str "bring"), ("evil", .num 1)]

/-! Helper lemmas about `takeLast`, the trim-on-append trajectory, and the
map/set operations. -/

lemma length_takeLast_le (n : Nat) (l : List α) : (takeLast n l).length ≤ n := by
  simp only [takeLast, List.length_drop]
  omega

lemma takeLast_eq_self {n : Nat} {l : List α} (h : l.length ≤ n) : takeLast n l = l := by
  simp [takeLast, Nat.sub_eq_zero_of_le h]

lemma takeLast_sublist (n : Nat) (l : List α) : List.Sublist (takeLast n l) l :=
  List.drop_sublist _ _

lemma takeLast_takeLast_append (n : Nat) (l m : List α) :
    takeLast n (takeLast n l ++ m) = takeLast n (l ++ m) := by
  by_cases h : l.length ≤ n
  · rw [takeLast_eq_self h]
  · push_neg at h
    have hk : l.length - n ≤ l.length := Nat.sub_le _ _
    unfold takeLast
    rw [← List.drop_append_of_le_length hk, List.drop_drop]
    congr 1
    simp only [List.length_drop, List.length_append]
    omega

/-- If every step turns the log into the last 100 elements of
(log ++ created), then a whole trajectory turns it into the last 100
elements of (log ++ everything created along the way). -/
lemma foldl_takeLast_trajectory {γ Op α : Type} (apply : Op → γ → γ) (coms : γ → List α)
    (created : Op → γ → List α)
    (hstep : ∀ op x, (coms x).length ≤ 100 →
      coms (apply op x) = takeLast 100 (coms x ++ created op x)) :
    ∀ (ops : List Op) (x : γ), (coms x).length ≤ 100 →
      coms (ops.foldl (fun s op => apply op s) x) =
        takeLast 100 (coms x ++ createdAlong apply created ops x) := by
  intro ops
  induction ops with
  | nil =>
    intro x hx
    simp [createdAlong, takeLast_eq_self hx]
  | cons op rest ih =>
    intro x hx
    have h1 := hstep op x hx
    have h2 : (coms (apply op x)).length ≤ 100 := by
      rw [h1]; exact length_takeLast_le _ _
    simp only [List.foldl_cons]
    calc coms (rest.foldl (fun s op => apply op s) (apply op x))
        = takeLast 100 (coms (apply op x) ++ createdAlong apply created rest (apply op x)) :=
          ih (apply op x) h2
      _ = takeLast 100 (takeLast 100 (coms x ++ created op x)
            ++ createdAlong apply created rest (apply op x)) := by rw [h1]
      _ = takeLast 100 ((coms x ++ created op x)
            ++ createdAlong apply created rest (apply op x)) :=
          takeLast_takeLast_append _ _ _
      _ = takeLast 100 (coms x ++ createdAlong apply created (op :: rest) x) := by
          rw [List.append_assoc]; rfl

lemma mem_setAdd_of_mem {s : List String} {n : String} (m : String) (h : n ∈ s) :
    n ∈ setAdd s m := by
  unfold setAdd
  split
  · exact h
  · exact List.mem_append_left _ h

lemma mapGet_mapSet_self (m : List (String × α)) (k : String) (v : α) :
    mapGet (mapSet m k v) k = some v := by
  unfold mapSet
  split
  · rename_i hany
    induction m with
    | nil => simp at hany
    | cons p rest ih =>
      by_cases hp : p.1 == k
      · simp [mapGet, List.find?, hp]
      · simp only [List.any_cons, hp, Bool.false_or] at hany
        simpa [mapGet, List.find?, hp] using ih hany
  · rename_i hany
    induction m with
    | nil => simp [mapGet, List.find?]
    | cons p rest ih =>
      by_cases hp : p.1 == k
      · simp [List.any_cons, hp] at hany
      · simp only [List.any_cons, hp, Bool.false_or] at hany
        simpa [mapGet, List.find?, hp] using ih hany

lemma mapGet_overwriteMap_ne (m : List (String × α)) (k k' : String) (v : α) (h : k' ≠ k) :
    mapGet (m.map (fun p => if p.1 == k then (k, v) else p)) k' = mapGet m k' := by
  induction m with
  | nil => rfl
  | cons p rest ih =>
    by_cases hp : p.1 == k
    · have hp1 : p.1 = k := by simpa using hp
      have hpk : (p.1 == k') = false := by
        simp only [beq_eq_false_iff_ne, ne_eq, hp1]
        exact fun hc => h hc.symm
      have hkk : (k == k') = false := by
        simp only [beq_eq_false_iff_ne, ne_eq]
        exact fun hc => h hc.symm
      simp only [List.map_cons, hp, if_true, mapGet, List.find?, hkk, hpk]
      exact ih
    · simp only [List.map_cons, hp, if_false, Bool.false_eq_true, mapGet, List.find?]
      by_cases hpq : p.1 == k'
      · simp [hpq]
      · simp only [hpq]
        exact ih

lemma mapGet_appendSingle_ne (m : List (String × α)) (k k' : String) (v : α) (h : k' ≠ k) :
    mapGet (m ++ [(k, v)]) k' = mapGet m k' := by
  have hkk : (k == k') = false := by
    simp only [beq_eq_false_iff_ne, ne_eq]
    exact fun hc => h hc.symm
  induction m with
  | nil => simp [mapGet, List.find?, hkk]
  | cons p rest ih =>
    by_cases hpq : p.1 == k'
    · simp [mapGet, List.find?, hpq]
    · simp only [List.cons_append, mapGet, List.find?, hpq] at *
      exact ih

lemma mapGet_mapSet_ne (m : List (String × α)) (k k' : String) (v : α) (h : k' ≠ k) :
    mapGet (mapSet m k v) k' = mapGet m k' := by
  unfold mapSet
  split
  · exact mapGet_overwriteMap_ne m k k' v h
  · exact mapGet_appendSingle_ne m k k' v h


/-- One role-aware `POST /api/command` turns the log into the last 100
elements of (log ++ records created by the request). -/
lemma server_post_commands_eq (cfg : ApiConfig) (now : Int) (req : PostRequest)
    (σ : Server.ServerState) (h : σ.commands.length ≤ 100) :
    ((Server.handleCommand cfg now req σ).2).commands
      = takeLast 100 (σ.commands ++ Server.postCreated cfg now req σ) := by
  unfold Server.handleCommand Server.postCreated
  by_cases h1 : (!validateApiKey cfg req.apiKey) = true
  · simp only [if_pos h1, List.append_nil, takeLast_eq_self h]
  · simp only [if_neg h1]
    by_cases h2 : (req.scriptId = "" ∨ req.playerId = "" ∨ req.command = "")
    · simp only [if_pos h2, List.append_nil, takeLast_eq_self h]
    · simp only [if_neg h2]
      by_cases h3 : req.command = "register"
      · simp only [if_pos h3]
        cases hgp : getProp req.args "isAuthorized" with
        | error e => simp only [hgp, List.append_nil, takeLast_eq_self h]
        | ok v => simp only [hgp, List.append_nil, takeLast_eq_self h]
      · simp only [if_neg h3]
        by_cases h4 : 100 < (σ.commands
            ++ [Server.mkCommandRecord now req (σ.authorizedUsers.contains req.playerName)]).length
        · rw [if_pos h4]
        · rw [if_neg h4, takeLast_eq_self (Nat.le_of_not_lt h4)]

/-- One legacy `POST /api/command` turns the log into the last 100
elements of (log ++ records created by the request). -/
lemma legacy_post_commands_eq (cfg : ApiConfig) (now : Int) (req : PostRequest)
    (σ : Legacy.ServerState) (h : σ.commands.length ≤ 100) :
    ((Legacy.handleCommand cfg now req σ).2).commands
      = takeLast 100 (σ.commands ++ Legacy.postCreated cfg now req σ) := by
  unfold Legacy.handleCommand Legacy.postCreated
  by_cases h1 : (!validateApiKey cfg req.apiKey) = true
  · simp only [if_pos h1, List.append_nil, takeLast_eq_self h]
  · simp only [if_neg h1]
    by_cases h2 : (req.scriptId = "" ∨ req.playerId = "" ∨ req.command = "")
    · simp only [if_pos h2, List.append_nil, takeLast_eq_self h]
    · simp only [if_neg h2]
      by_cases h3 : req.command = "coordinated"
      · simp only [if_pos h3]
        by_cases hv : (!validateCoordinatedCommand (sanitizeCommandData req.args)) = true
        · simp only [if_pos hv, List.append_nil, takeLast_eq_self h]
        · simp only [if_neg hv]
          by_cases h4 : 100 < (σ.commands ++ [Legacy.mkCoordinatedRecord now req]).length
          · rw [if_pos h4]
          · rw [if_neg h4, takeLast_eq_self (Nat.le_of_not_lt h4)]
      · simp only [if_neg h3]
        by_cases h4 : 100 < (σ.commands ++ [Legacy.mkRegularRecord now req]).length
        · rw [if_pos h4]
        · rw [if_neg h4, takeLast_eq_self (Nat.le_of_not_lt h4)]

/-- C5. Log capacity invariant: one completed submission keeps the log at
or below 100 records, and a whole sequence of submissions leaves exactly
the last 100 of (initial log ++ records appended along the way), i.e. the
most recently appended records win, in insertion order. Both variants. -/
theorem claim_C5_log_capacity :
    (∀ (cfg : ApiConfig) (now : Int) (req : PostRequest) (σ : Server.ServerState),
        σ.commands.length ≤ 100 →
        ((Server.handleCommand cfg now req σ).2).commands.length ≤ 100)
    ∧ (∀ (cfg : ApiConfig) (ps : List (Int × PostRequest)) (σ : Server.ServerState),
        σ.commands.length ≤ 100 →
        (Server.applyPosts cfg ps σ).commands
          = takeLast 100 (σ.commands ++ Server.postsCreatedAlong cfg ps σ))
    ∧ (∀ (cfg : ApiConfig) (now : Int) (req : PostRequest) (σ : Legacy.ServerState),
        σ.commands.length ≤ 100 →
        ((Legacy.handleCommand cfg now req σ).2).commands.length ≤ 100)
    ∧ (∀ (cfg : ApiConfig) (ps : List (Int × PostRequest)) (σ : Legacy.ServerState),
        σ.commands.length ≤ 100 →
        (Legacy.applyPosts cfg ps σ).commands
          = takeLast 100 (σ.commands ++ Legacy.postsCreatedAlong cfg ps σ)) := by
  refine ⟨?_, ?_, ?_, ?_⟩
  · intro cfg now req σ h
    rw [server_post_commands_eq cfg now req σ h]
    exact length_takeLast_le _ _
  · intro cfg ps σ h
    exact foldl_takeLast_trajectory _ Server.ServerState.commands _
      (fun p x hx => server_post_commands_eq cfg p.1 p.2 x hx) ps σ h
  · intro cfg now req σ h
    rw [legacy_post_commands_eq cfg now req σ h]
    exact length_takeLast_le _ _
  · intro cfg ps σ h
    exact foldl_takeLast_trajectory _ Legacy.ServerState.commands _
      (fun p x hx => legacy_post_commands_eq cfg p.1 p.2 x hx) ps σ h

/-- C5 witness: a concrete submission into the empty log keeps the bound. -/
theorem claim_C5_log_capacity_witness :
    ((Server.handleCommand cfg0 0 reqBring Server.initState).2).commands.length ≤ 100 :=
  claim_C5_log_capacity.1 cfg0 0 reqBring Server.initState (by simp [Server.initState])

/-- C6. Prune postcondition, both variants: after `pruneCommands now`, no
surviving record carries a timestamp older than `now - 300000`; every
prior record with a timestamp newer than `now - 300000` survives; and the
surviving records keep their original order. -/
theorem claim_C6_prune_postcondition :
    ∀ (now : Int) (σ : Server.ServerState) (σl : Legacy.ServerState),
      (∀ r ∈ (Server.pruneCommands now σ).commands, ∀ ts : Int,
          r.timestamp = some ts → ¬ ts < now - 300000)
      ∧ (∀ r ∈ σ.commands, ∀ ts : Int, r.timestamp = some ts →
          now - 300000 < ts → r ∈ (Server.pruneCommands now σ).commands)
      ∧ List.Sublist (Server.pruneCommands now σ).commands σ.commands
      ∧ (∀ r ∈ (Legacy.pruneCommands now σl).commands, ∀ ts : Int,
          r.timestamp = some ts → ¬ ts < now - 300000)
      ∧ (∀ r ∈ σl.commands, ∀ ts : Int, r.timestamp = some ts →
          now - 300000 < ts → r ∈ (Legacy.pruneCommands now σl).commands)
      ∧ List.Sublist (Legacy.pruneCommands now σl).commands σl.commands := by
  intro now σ σl
  refine ⟨?_, ?_, List.filter_sublist _, ?_, ?_, List.filter_sublist _⟩
  · intro r hr ts hts
    have hkept := (List.mem_filter.mp hr).2
    rw [hts] at hkept
    simp only [jsGtOpt, decide_eq_true_eq] at hkept
    omega
  · intro r hr ts hts hgt
    refine List.mem_filter.mpr ⟨hr, ?_⟩
    rw [hts]
    simpa only [jsGtOpt, decide_eq_true_eq] using hgt
  · intro r hr ts hts
    have hkept := (List.mem_filter.mp hr).2
    rw [hts] at hkept
    simp only [jsGtOpt, decide_eq_true_eq] at hkept
    omega
  · intro r hr ts hts hgt
    refine List.mem_filter.mpr ⟨hr, ?_⟩
    rw [hts]
    simpa only [jsGtOpt, decide_eq_true_eq] using hgt

/-- C8. The authorized-name set only grows: no server operation removes a
name from it; in particular a later registration (for any id) carrying
`isAuthorized: false` leaves every present name in place. -/
theorem claim_C8_authorized_only_grows :
    ∀ (cfg : ApiConfig) (op : Server.ServerOp) (σ : Server.ServerState) (n : String),
      n ∈ σ.authorizedUsers → n ∈ (Server.applyOp cfg op σ).authorizedUsers := by
  intro cfg op σ n hn
  cases op with
  | post now req =>
    simp only [Server.applyOp]
    unfold Server.handleCommand
    split
    · exact hn
    · split
      · exact hn
      · split
        · split
          · exact hn
          · split
            · exact mem_setAdd_of_mem _ hn
            · exact hn
        · exact hn
  | poll now scriptId playerId apiKey => exact hn
  | prune now => exact hn


/-- C8 witness: with `"N"` authorized, a registration for a different id
with the same name and `isAuthorized: false` leaves `"N"` authorized. -/
theorem claim_C8_authorized_only_grows_witness :
    "N" ∈ (Server.applyOp cfg0 (.post 1 regFalseReq) stateWithN).authorizedUsers :=
  claim_C8_authorized_only_grows cfg0 (.post 1 regFalseReq) stateWithN "N"
    (by simp [stateWithN])

/-- C4. The `isAdminCommand` flag of every freshly stored record equals
membership of the submitted `senderName` in the authorized-name set at the
moment of the write (whatever the per-id registry says), and no operation
ever rewrites a stored record: every record in the post-state log is
either a record of the pre-state log, unchanged, or the one record this
operation created. -/
theorem claim_C4_admin_flag_write_time :
    ∀ (cfg : ApiConfig) (op : Server.ServerOp) (σ : Server.ServerState),
      List.Sublist (Server.applyOp cfg op σ).commands
        (σ.commands ++ Server.createdByOp cfg op σ)
      ∧ ∀ r ∈ Server.createdByOp cfg op σ, ∃ now req,
          op = Server.ServerOp.post now req
          ∧ r.isAdminCommand = σ.authorizedUsers.contains req.playerName
          ∧ r = Server.mkCommandRecord now req
              (σ.authorizedUsers.contains req.playerName) := by
  intro cfg op σ
  cases op with
  | poll now scriptId playerId apiKey =>
    refine ⟨?_, ?_⟩
    · simpa only [Server.applyOp, Server.createdByOp, List.append_nil]
        using List.Sublist.refl σ.commands
    · intro r hr
      simp [Server.createdByOp] at hr
  | prune now =>
    refine ⟨?_, ?_⟩
    · simp only [Server.applyOp, Server.createdByOp, List.append_nil]
      exact List.filter_sublist _
    · intro r hr
      simp [Server.createdByOp] at hr
  | post now req =>
    refine ⟨?_, ?_⟩
    · simp only [Server.applyOp, Server.createdByOp]
      unfold Server.handleCommand Server.postCreated
      by_cases h1 : (!validateApiKey cfg req.apiKey) = true
      · simpa only [if_pos h1, List.append_nil] using List.Sublist.refl σ.commands
      · simp only [if_neg h1]
        by_cases h2 : (req.scriptId = "" ∨ req.playerId = "" ∨ req.command = "")
        · simpa only [if_pos h2, List.append_nil] using List.Sublist.refl σ.commands
        · simp only [if_neg h2]
          by_cases h3 : req.command = "register"
          · simp only [if_pos h3]
            cases hgp : getProp req.args "isAuthorized" with
            | error e =>
              simpa only [hgp, List.append_nil] using List.Sublist.refl σ.commands
            | ok v =>
              simpa only [hgp, List.append_nil] using List.Sublist.refl σ.commands
          · simp only [if_neg h3]
            by_cases h4 : 100 < (σ.commands ++ [Server.mkCommandRecord now req
                (σ.authorizedUsers.contains req.playerName)]).length
            · rw [if_pos h4]
              exact takeLast_sublist _ _
            · rw [if_neg h4]
    · simp only [Server.createdByOp]
      unfold Server.postCreated
      by_cases h1 : (!validateApiKey cfg req.apiKey) = true
      · intro r hr
        rw [if_pos h1] at hr
        simp at hr
      · simp only [if_neg h1]
        by_cases h2 : (req.scriptId = "" ∨ req.playerId = "" ∨ req.command = "")
        · intro r hr
          rw [if_pos h2] at hr
          simp at hr
        · simp only [if_neg h2]
          by_cases h3 : req.command = "register"
          · intro r hr
            rw [if_pos h3] at hr
            simp at hr
          · simp only [if_neg h3]
            intro r hr
            rcases List.mem_singleton.mp hr with rfl
            exact ⟨now, req, rfl, rfl, rfl⟩

/-- C2. Base visibility predicate, identical in both variants: a returned
record matches the poll's scriptId, does not come from the poller itself,
and — when it carries a timestamp — that timestamp is within the last 30
seconds; the returned subset is a sublist of the log (insertion order). -/
theorem claim_C2_base_visibility :
    (∀ (now : Int) (sid pid : String) (σ : Server.ServerState)
        (r : Server.CommandRecord), r ∈ Server.filteredCommands now sid pid σ →
        r.scriptId = sid ∧ r.playerId ≠ pid
          ∧ ∀ ts : Int, r.timestamp = some ts → now - 30000 ≤ ts)
    ∧ (∀ (now : Int) (sid pid : String) (σ : Server.ServerState),
        List.Sublist (Server.filteredCommands now sid pid σ) σ.commands)
    ∧ (∀ (now : Int) (sid pid : String) (σ : Legacy.ServerState)
        (r : Legacy.CommandRecord), r ∈ Legacy.filteredCommands now sid pid σ →
        r.scriptId = sid ∧ r.playerId ≠ pid
          ∧ ∀ ts : Int, r.timestamp = some ts → now - 30000 ≤ ts)
    ∧ (∀ (now : Int) (sid pid : String) (σ : Legacy.ServerState),
        List.Sublist (Legacy.filteredCommands now sid pid σ) σ.commands) := by
  refine ⟨?_, fun _ _ _ _ => List.filter_sublist _, ?_, fun _ _ _ _ => List.filter_sublist _⟩
  · intro now sid pid σ r hr
    have hp := (List.mem_filter.mp hr).2
    unfold Server.visiblePred at hp
    by_cases h1 : (r.scriptId ≠ sid ∨ r.playerId = pid)
    · rw [if_pos h1] at hp
      exact absurd hp (by simp)
    · push_neg at h1
      refine ⟨h1.1, h1.2, ?_⟩
      rw [if_neg (by push_neg; exact h1)] at hp
      by_cases h2 : jsLtOpt r.timestamp (now - 30000) = true
      · rw [if_pos h2] at hp
        exact absurd hp (by simp)
      · intro ts hts
        rw [hts] at h2
        simp only [jsLtOpt, decide_eq_true_eq] at h2
        omega
  · intro now sid pid σ r hr
    have hp := (List.mem_filter.mp hr).2
    unfold Legacy.visiblePred at hp
    by_cases h1 : (r.scriptId ≠ sid ∨ r.playerId = pid)
    · rw [if_pos h1] at hp
      exact absurd hp (by simp)
    · push_neg at h1
      refine ⟨h1.1, h1.2, ?_⟩
      rw [if_neg (by push_neg; exact h1)] at hp
      by_cases h2 : jsLtOpt r.timestamp (now - 30000) = true
      · rw [if_pos h2] at hp
        exact absurd hp (by simp)
      · intro ts hts
        rw [hts] at h2
        simp only [jsLtOpt, decide_eq_true_eq] at h2
        omega

/-- C2 witness: a concrete returned record satisfies the base predicate. -/
theorem claim_C2_base_visibility_witness :
    recAdm.scriptId = "s1" ∧ recAdm.playerId ≠ "B"
      ∧ ∀ ts : Int, recAdm.timestamp = some ts → 100 - 30000 ≤ ts :=
  claim_C2_base_visibility.1 100 "s1" "B" stateC2 recAdm
    (show recAdm ∈ [recAdm] from List.mem_singleton.mpr rfl)

/-- C9. A stored record with no timestamp is never excluded by the
30-second recency test — its visibility does not depend on the poll
instant at all, in either variant — yet the 5-minute prune removes it
unconditionally. -/
theorem claim_C9_missing_timestamp :
    (∀ r : Server.CommandRecord, r.timestamp = none →
      (∀ now : Int, jsLtOpt r.timestamp (now - 30000) = false)
      ∧ (∀ (now now' : Int) (sid pid : String) (σ : Server.ServerState),
          Server.visiblePred now sid pid σ r = Server.visiblePred now' sid pid σ r)
      ∧ (∀ (now : Int) (σ : Server.ServerState),
          r ∉ (Server.pruneCommands now σ).commands))
    ∧ (∀ r : Legacy.CommandRecord, r.timestamp = none →
      (∀ now : Int, jsLtOpt r.timestamp (now - 30000) = false)
      ∧ (∀ (now now' : Int) (sid pid : String),
          Legacy.visiblePred now sid pid r = Legacy.visiblePred now' sid pid r)
      ∧ (∀ (now : Int) (σ : Legacy.ServerState),
          r ∉ (Legacy.pruneCommands now σ).commands)) := by
  constructor
  · intro r h
    refine ⟨fun now => by rw [h]; rfl, ?_, ?_⟩
    · intro now now' sid pid σ
      unfold Server.visiblePred
      rw [h]
      simp only [jsLtOpt]
    · intro now σ hc
      have hkept := (List.mem_filter.mp hc).2
      rw [h] at hkept
      simp [jsGtOpt] at hkept
  · intro r h
    refine ⟨fun now => by rw [h]; rfl, ?_, ?_⟩
    · intro now now' sid pid
      unfold Legacy.visiblePred
      rw [h]
      simp only [jsLtOpt]
    · intro now σ hc
      have hkept := (List.mem_filter.mp hc).2
      rw [h] at hkept
      simp [jsGtOpt] at hkept

/-- C9 witness: the concrete timestampless record is pruned away even at
prune instant 0. -/
theorem claim_C9_missing_timestamp_witness :
    recNoTs ∉ (Server.pruneCommands 0 stateNoTs).commands :=
  ((claim_C9_missing_timestamp.1 recNoTs rfl).2.2) 0 stateNoTs

/-- C4 witness: a concrete post whose sender name is not authorized
creates its record with `isAdminCommand = false` = the membership test. -/
theorem claim_C4_admin_flag_write_time_witness :
    ∃ now req, Server.ServerOp.post 5 reqBring = Server.ServerOp.post now req
      ∧ rec0.isAdminCommand = stateWithN.authorizedUsers.contains req.playerName
      ∧ rec0 = Server.mkCommandRecord now req
          (stateWithN.authorizedUsers.contains req.playerName) :=
  (claim_C4_admin_flag_write_time cfg0 (.post 5 reqBring) stateWithN).2 rec0
    (show rec0 ∈ [rec0] from List.mem_singleton.mpr rfl)

/-- C1. Read-path role-target rule: for a record passing the scriptId,
self-exclusion and recency tests — if `isAdminCommand` is true it is
excluded for an admin poller; with a truthy explicit `args.target` it is
included exactly when the target strictly equals the poller's stored
display name or the poller's id; with no such target it is included for
every non-admin poller (an unregistered poller counts as non-admin); if
`isAdminCommand` is false it is included exactly when the poller is an
admin. -/
theorem claim_C1_role_target_rule :
    ∀ (now : Int) (sid pid : String) (σ : Server.ServerState)
      (r : Server.CommandRecord),
      r ∈ σ.commands →
      r.scriptId = sid →
      r.playerId ≠ pid →
      jsLtOpt r.timestamp (now - 30000) = false →
      ((r.isAdminCommand = true → Server.pollerIsAdmin σ pid = true →
          r ∉ Server.filteredCommands now sid pid σ)
      ∧ (r.isAdminCommand = true → Server.pollerIsAdmin σ pid = false →
          (truthy r.args && truthy (getPropT r.args "target")) = true →
          (r ∈ Server.filteredCommands now sid pid σ ↔
            (strictEqStrOrNull (getPropT r.args "target") (Server.pollerName σ pid)
              || strictEqStr (getPropT r.args "target") pid) = true))
      ∧ (r.isAdminCommand = true → Server.pollerIsAdmin σ pid = false →
          (truthy r.args && truthy (getPropT r.args "target")) = false →
          r ∈ Server.filteredCommands now sid pid σ)
      ∧ (r.isAdminCommand = false →
          (r ∈ Server.filteredCommands now sid pid σ ↔
            Server.pollerIsAdmin σ pid = true))) := by
  intro now sid pid σ r hmem hsid hpid ht
  have hiff : (r ∈ Server.filteredCommands now sid pid σ) ↔
      Server.visiblePred now sid pid σ r = true := by
    unfold Server.filteredCommands
    rw [List.mem_filter]
    exact and_iff_right hmem
  have hvp : Server.visiblePred now sid pid σ r =
      (if r.isAdminCommand then
        if Server.pollerIsAdmin σ pid then false
        else if truthy r.args && truthy (getPropT r.args "target") then
          strictEqStrOrNull (getPropT r.args "target") (Server.pollerName σ pid)
            || strictEqStr (getPropT r.args "target") pid
        else true
      else if !r.isAdminCommand && Server.pollerIsAdmin σ pid then true
      else false) := by
    unfold Server.visiblePred
    rw [if_neg (by simp [hsid, hpid]), if_neg (by simp [ht])]
  refine ⟨?_, ?_, ?_, ?_⟩
  · intro ha hpa
    rw [hiff, hvp, if_pos ha, if_pos hpa]
    simp
  · intro ha hpa htgt
    rw [hiff, hvp, if_pos ha, if_neg (by simp [hpa]), if_pos htgt]
  · intro ha hpa htgt
    rw [hiff, hvp, if_pos ha, if_neg (by simp [hpa]), if_neg (by simp [htgt])]
  · intro ha
    rw [hiff, hvp, if_neg (by simp [ha]), ha]
    cases hb : Server.pollerIsAdmin σ pid <;> simp [hb]

/-- C1 witness: the untargeted admin broadcast `recAdm` is delivered to
the unregistered (hence non-admin) poller `"B"`. -/
theorem claim_C1_role_target_rule_witness :
    recAdm ∈ Server.filteredCommands 100 "s1" "B" stateC2 :=
  (claim_C1_role_target_rule 100 "s1" "B" stateC2 recAdm
    (show recAdm ∈ [recAdm] from List.mem_singleton.mpr rfl)
    rfl (by decide) rfl).2.2.1 rfl rfl rfl

/-- C7. Register frame effect: a `register` submission never changes the
command log; it touches registry entries only at the sender's own id; on
success it stores/overwrites that entry and extends the authorized-name
set exactly when `args.isAuthorized` is truthy; when reading
`args.isAuthorized` throws, the whole state is untouched. -/
theorem claim_C7_register_frame :
    ∀ (cfg : ApiConfig) (now : Int) (req : PostRequest) (σ : Server.ServerState),
      req.command = "register" →
      ((Server.handleCommand cfg now req σ).2.commands = σ.commands)
      ∧ (∀ k, k ≠ req.playerId →
          mapGet (Server.handleCommand cfg now req σ).2.registeredUsers k
            = mapGet σ.registeredUsers k)
      ∧ (validateApiKey cfg req.apiKey = true → req.scriptId ≠ "" → req.playerId ≠ "" →
          ∀ isAuth, getProp req.args "isAuthorized" = Except.ok isAuth →
            mapGet (Server.handleCommand cfg now req σ).2.registeredUsers req.playerId
              = some { scriptId := req.scriptId, playerId := req.playerId,
                       playerName := req.playerName, isAuthorized := isAuth,
                       timestamp := now }
            ∧ (Server.handleCommand cfg now req σ).2.authorizedUsers
              = (if truthy isAuth then setAdd σ.authorizedUsers req.playerName
                 else σ.authorizedUsers))
      ∧ (∀ isAuth, getProp req.args "isAuthorized" = Except.ok isAuth →
          truthy isAuth = false →
          (Server.handleCommand cfg now req σ).2.authorizedUsers = σ.authorizedUsers)
      ∧ (validateApiKey cfg req.apiKey = true → req.scriptId ≠ "" → req.playerId ≠ "" →
          getProp req.args "isAuthorized" = Except.error () →
          (Server.handleCommand cfg now req σ).2 = σ) := by
  intro cfg now req σ hreg
  unfold Server.handleCommand
  by_cases h1 : (!validateApiKey cfg req.apiKey) = true
  · rw [if_pos h1]
    refine ⟨rfl, fun k _ => rfl, ?_, fun isAuth _ _ => rfl, fun hv _ _ _ => rfl⟩
    intro hv
    rw [hv] at h1
    simp at h1
  · rw [if_neg h1]
    by_cases h2 : (req.scriptId = "" ∨ req.playerId = "" ∨ req.command = "")
    · rw [if_pos h2]
      refine ⟨rfl, fun k _ => rfl, ?_, fun isAuth _ _ => rfl, fun _ _ _ _ => rfl⟩
      intro _ hs hp isAuth _
      rcases h2 with h | h | h
      · exact absurd h hs
      · exact absurd h hp
      · rw [hreg] at h
        exact absurd h (by decide)
    · rw [if_neg h2, if_pos hreg]
      cases hgp : getProp req.args "isAuthorized" with
      | error e =>
        refine ⟨rfl, fun k _ => rfl, ?_, ?_, fun _ _ _ _ => rfl⟩
        · intro _ _ _ isAuth hok
          exact absurd hok (by simp)
        · intro isAuth hok hfalse
          exact absurd hok (by simp)
      | ok v =>
        refine ⟨rfl, ?_, ?_, ?_, ?_⟩
        · intro k hk
          exact mapGet_mapSet_ne _ _ _ _ hk
        · intro _ _ _ isAuth hok
          injection hok with hh
          subst hh
          exact ⟨mapGet_mapSet_self _ _ _, rfl⟩
        · intro isAuth hok hfalse
          injection hok with hh
          subst hh
          dsimp only
          rw [if_neg (by simp [hfalse])]
        · intro _ _ _ herr
          exact absurd herr (by simp)

/-- C7 witness: a concrete successful admin registration into the empty
state leaves the log empty and stores the registry entry. -/
theorem claim_C7_register_frame_witness :
    (Server.handleCommand cfg0 7 regTrueReq Server.initState).2.commands
        = Server.initState.commands
    ∧ mapGet (Server.handleCommand cfg0 7 regTrueReq Server.initState).2.registeredUsers "A"
        = some { scriptId := "s1", playerId := "A", playerName := "Admin1",
                 isAuthorized := .bool true, timestamp := 7 } :=
  ⟨(claim_C7_register_frame cfg0 7 regTrueReq Server.initState rfl).1,
    ((claim_C7_register_frame cfg0 7 regTrueReq Server.initState rfl).2.2.1
      rfl (by decide) (by decide) (.bool true) rfl).1⟩

/-- C3 counterexample: the role-aware server stores a non-register
submission whose `args` keeps the key `"evil"`, which is outside the
allow list — `sanitizeCommandData` is never applied on this path. -/
theorem claim_C3_counterexample :
    ((Server.handleCommand cfg0 0 reqEvil Server.initState).2.commands.any
      (fun r => (objKeys r.args).any (fun k => !allowedKeys.contains k))) = true := by
  rfl

/-- C3 (amended). Sanitization to the allow list happens exactly on the
legacy coordinated path: `sanitizeCommandData` output carries only
allow-listed keys, and the legacy coordinated branch stores it; every
other non-register submission — any non-register command in the
role-aware server, any non-coordinated command in the legacy one — stores
the submitted truthy `args` value unchanged. -/
theorem claim_C3_sanitize_only_coordinated :
    (∀ data : JsValue, ∀ k ∈ objKeys (sanitizeCommandData data), k ∈ allowedKeys)
    ∧ (∀ (cfg : ApiConfig) (now : Int) (req : PostRequest) (σ : Legacy.ServerState),
        validateApiKey cfg req.apiKey = true →
        req.scriptId ≠ "" → req.playerId ≠ "" →
        req.command = "coordinated" →
        validateCoordinatedCommand (sanitizeCommandData req.args) = true →
        Legacy.postCreated cfg now req σ = [Legacy.mkCoordinatedRecord now req]
        ∧ (Legacy.mkCoordinatedRecord now req).args = sanitizeCommandData req.args)
    ∧ (∀ (cfg : ApiConfig) (now : Int) (req : PostRequest) (σ : Server.ServerState),
        validateApiKey cfg req.apiKey = true →
        req.scriptId ≠ "" → req.playerId ≠ "" →
        req.command ≠ "register" → truthy req.args = true →
        ∀ r ∈ Server.postCreated cfg now req σ, r.args = req.args)
    ∧ (∀ (cfg : ApiConfig) (now : Int) (req : PostRequest) (σ : Legacy.ServerState),
        validateApiKey cfg req.apiKey = true →
        req.scriptId ≠ "" → req.playerId ≠ "" →
        req.command ≠ "coordinated" → truthy req.args = true →
        ∀ r ∈ Legacy.postCreated cfg now req σ, r.args = req.args) := by
  refine ⟨?_, ?_, ?_, ?_⟩
  · intro data k hk
    unfold sanitizeCommandData at hk
    by_cases htr : truthy data = true
    · rw [if_pos htr] at hk
      simp only [objKeys] at hk
      rw [List.mem_map] at hk
      obtain ⟨p, hp, hkp⟩ := hk
      rw [List.mem_filterMap] at hp
      obtain ⟨a, ha, hfa⟩ := hp
      by_cases hu : isUndefined (getPropT data a) = true
      · rw [if_pos hu] at hfa
        exact absurd hfa (by simp)
      · rw [if_neg hu] at hfa
        injection hfa with hh
        subst hh
        rw [← hkp]
        exact ha
    · rw [if_neg htr] at hk
      simp [objKeys] at hk
  · intro cfg now req σ hv hs hp hco hval
    unfold Legacy.postCreated
    rw [if_neg (by simp [hv]),
      if_neg (by push_neg; exact ⟨hs, hp, by rw [hco]; decide⟩),
      if_pos hco, if_neg (by simp [hval])]
    exact ⟨rfl, rfl⟩
  · intro cfg now req σ hv hs hp hreg htr r hr
    unfold Server.postCreated at hr
    rw [if_neg (by simp [hv])] at hr
    by_cases h2 : (req.scriptId = "" ∨ req.playerId = "" ∨ req.command = "")
    · rw [if_pos h2] at hr
      simp at hr
    · rw [if_neg h2, if_neg hreg] at hr
      rcases List.mem_singleton.mp hr with rfl
      simp [Server.mkCommandRecord, htr]
  · intro cfg now req σ hv hs hp hco htr r hr
    unfold Legacy.postCreated at hr
    rw [if_neg (by simp [hv])] at hr
    by_cases h2 : (req.scriptId = "" ∨ req.playerId = "" ∨ req.command = "")
    · rw [if_pos h2] at hr
      simp at hr
    · rw [if_neg h2, if_neg hco] at hr
      rcases List.mem_singleton.mp hr with rfl
      simp [Legacy.mkRegularRecord, htr]

/-- C3 amended-claim witness: a sanitized key of a concrete mixed object
is on the allow list. -/
theorem claim_C3_sanitize_only_coordinated_witness :
    "command" ∈ allowedKeys :=
  claim_C3_sanitize_only_coordinated.1 dataMixed "command" (by decide)

/-- C10 counterexample: a `register` whose `args` is the string `"x"` —
truthy but not an object — is *not* answered with the 500 response, and it
*does* modify the registry (the entry for `"A"` appears). -/
theorem claim_C10_counterexample :
    (Server.handleCommand cfg0 7 regStrReq Server.initState).1.isInternalError = false
    ∧ (mapGet (Server.handleCommand cfg0 7 regStrReq
        Server.initState).2.registeredUsers "A").isSome = true :=
  ⟨rfl, rfl⟩

/-- C10 (amended). A register submission whose `args` is absent
(`undefined`) or `null` — the receivers on which the `args.isAuthorized`
read throws — is answered with the internal-error (500) response and
leaves the whole state (registry, authorized set, log) unchanged. -/
theorem claim_C10_register_nullish_args :
    ∀ (cfg : ApiConfig) (now : Int) (req : PostRequest) (σ : Server.ServerState),
      validateApiKey cfg req.apiKey = true →
      req.scriptId ≠ "" → req.playerId ≠ "" →
      req.command = "register" →
      (req.args = JsValue.undefined ∨ req.args = JsValue.null) →
      Server.handleCommand cfg now req σ = (Server.PostResponse.internalError, σ) := by
  intro cfg now req σ hv hs hp hreg hargs
  unfold Server.handleCommand
  rw [if_neg (by simp [hv]),
    if_neg (by push_neg; exact ⟨hs, hp, by rw [hreg]; decide⟩),
    if_pos hreg]
  rcases hargs with h | h <;> rw [h] <;> rfl

/-- C10 amended-claim witness: the concrete argless registration yields
the 500 response and the unchanged boot state. -/
theorem claim_C10_register_nullish_args_witness :
    Server.handleCommand cfg0 7 regUndefReq Server.initState
      = (Server.PostResponse.internalError, Server.initState) :=
  claim_C10_register_nullish_args cfg0 7 regUndefReq Server.initState rfl
    (by decide) (by decide) rfl (Or.inl rfl)

/-- C6 witness: a concrete fresh record survives a concrete prune. -/
theorem claim_C6_prune_postcondition_witness :
    recAdm ∈ (Server.pruneCommands 0 stateC2).commands :=
  (claim_C6_prune_postcondition 0 stateC2 Legacy.initState).2.1 recAdm
    (show recAdm ∈ [recAdm] from List.mem_singleton.mpr rfl) 100 rfl (by decide)

end AltController
